import Mathlib

/-!
Shallow embedding of the cache-comp repository.

Part A models the two API route handlers,
`src/app/api/get-users/route.ts` and `src/app/api/get-users/[id]/route.ts`:
query parsing (`Number.parseInt(..., 10)` with the `?? "default"` fallback),
the clamps on `delay` and `limit`, the sleep-then-fetch control flow (as an
event trace), the upstream URL, and the three response branches
(upstream OK / upstream non-OK / thrown exception) with their statuses,
JSON bodies and the `x-delay-applied` header.

Part B (later in the file) models the carousel math helpers of
`src/unnamed/part_001` and `src/unnamed/part_002`: `normalizeAngle`,
the signed angular distance, the fade parameter, the opacity mapping and
the attraction mapping, over the real numbers.
-/

namespace CacheComp

/-! ## JS number parsing

Model of the ECMAScript builtin `Number.parseInt(s, 10)` as used by the
route handlers: skip leading whitespace, read an optional sign, then the
longest run of decimal digits; the result is `none` exactly when that run
is empty (the NaN case, for which `Number.isFinite` is false). -/

def isJsSpace (c : Char) : Bool :=
  c = ' ' || c = '\t' || c = '\n' || c = '\r' || c = '\x0b' || c = '\x0c'

def skipWs : List Char → List Char
  | [] => []
  | c :: cs => if isJsSpace c then skipWs cs else c :: cs

def leadingDigits : List Char → List Char
  | [] => []
  | c :: cs => if c.isDigit then c :: leadingDigits cs else []

def digitsToNat (l : List Char) : Nat :=
  l.foldl (fun acc c => acc * 10 + (c.toNat - 48)) 0

def parseDigits (cs : List Char) : Option Nat :=
  match leadingDigits cs with
  | [] => none
  | ds => some (digitsToNat ds)

def parseSigned : List Char → Option Int
  | '-' :: rest => (parseDigits rest).map (fun n => -(n : Int))
  | '+' :: rest => (parseDigits rest).map (fun n => (n : Int))
  | cs => (parseDigits cs).map (fun n => (n : Int))

def jsParseInt (s : String) : Option Int :=
  parseSigned (skipWs s.data)

/-! ## Query-parameter handling of the route handlers

From `src/app/api/get-users/route.ts` lines 7-12:
`const limit = Number.parseInt(searchParams.get("limit") ?? "100", 10);`
`const delay = Number.parseInt(searchParams.get("delay") ?? "2000", 10);`
`const safeDelay = Number.isFinite(delay) ? Math.max(0, Math.min(delay, 30000)) : 0;`
`const safeLimit = Number.isFinite(limit) ? Math.max(1, Math.min(limit, 1000)) : 100;`
A query parameter is `Option String`: `none` when absent. -/

def safeDelay (delayParam : Option String) : Int :=
  match jsParseInt (delayParam.getD ("2000")) with
  | some d => max 0 (min d 30000)
  | none => 0

def safeLimit (limitParam : Option String) : Int :=
  match jsParseInt (limitParam.getD ("100")) with
  | some l => max 1 (min l 1000)
  | none => 100

/-- Delay handling of `src/app/api/get-users/[id]/route.ts` lines 8-9, which
repeats the same two lines textually:
`const delay = Number.parseInt(searchParams.get("delay") ?? "2000", 10);`
`const safeDelay = Number.isFinite(delay) ? Math.max(0, Math.min(delay, 30000)) : 0;` -/
def safeDelayById (delayParam : Option String) : Int :=
  match jsParseInt (delayParam.getD ("2000")) with
  | some d => max 0 (min d 30000)
  | none => 0

/-! ## Handler bodies -/

/-- Outcome of the single `await fetch(url)` call: the promise either
resolves to a response carrying a status and a body, or rejects with an
exception whose optional `message` field is modelled as `Option String`
(`err?.message` is `undefined` when absent). -/
inductive FetchOutcome where
  | resolved (status : Nat) (body : String)
  | threw (message : Option String)
  deriving DecidableEq, Repr

/-- The `ok` flag of a fetch `Response`: status in the range 200-299. -/
def statusOk (s : Nat) : Bool := 200 ≤ s && s < 300

/-- Body of a handler response: either the upstream JSON data passed
through (`NextResponse.json(data)`) or an error object
(`NextResponse.json({ error: msg })`). -/
inductive RespBody where
  | json (data : String)
  | errorObj (error : String)
  deriving DecidableEq, Repr

/-- The `error` field of the response body, when present. -/
def errorFieldOf : RespBody → Option String
  | .json _ => none
  | .errorObj m => some m

structure ApiResponse where
  status : Nat
  body : RespBody
  xDelayApplied : Option String
  deriving DecidableEq, Repr

/-- Observable effects of a handler run, in program order: the conditional
`await sleep(safeDelay)` and the single `await fetch(url)`. -/
inductive Event where
  | sleepEv (ms : Int)
  | fetchEv (url : String)
  deriving DecidableEq, Repr

def isSleepEv : Event → Bool
  | .sleepEv _ => true
  | .fetchEv _ => false

def isFetchEv : Event → Bool
  | .sleepEv _ => false
  | .fetchEv _ => true

def getUsersUrl (limit : Int) : String :=
  "https://dummyjson.com/users?limit=" ++ toString limit

def getUserByIdUrl (id : String) : String :=
  "https://dummyjson.com/users/" ++ id

/-- Shared response construction of both handlers (the `try`/`catch` body):
on `upstream.ok` return the data with status 200 (the `NextResponse.json`
default); on non-OK return `{ error: "Upstream fetch failed" }` with the
upstream status; on a thrown exception return
`{ error: err?.message ?? "Unknown error" }` with status 500. Every branch
sets the `x-delay-applied` header to `String(safeDelay)`. -/
def routeResponse (sd : Int) (outcome : FetchOutcome) : ApiResponse :=
  match outcome with
  | .resolved status body =>
      if statusOk status then
        { status := 200, body := .json body, xDelayApplied := some (toString sd) }
      else
        { status := status, body := .errorObj ("Upstream fetch failed"),
          xDelayApplied := some (toString sd) }
  | .threw msg =>
      { status := 500, body := .errorObj (msg.getD ("Unknown error")),
        xDelayApplied := some (toString sd) }

/-- `GET /api/get-users` from `src/app/api/get-users/route.ts`: compute
`safeLimit` and `safeDelay`, sleep `safeDelay` ms when positive, fetch
`https://dummyjson.com/users?limit=<safeLimit>` once, and build the
response. `fetch` maps the request URL to the outcome of the one call. -/
def getUsersHandler (limitParam delayParam : Option String)
    (fetch : String → FetchOutcome) : List Event × ApiResponse :=
  let sl := safeLimit limitParam
  let sd := safeDelay delayParam
  let url := getUsersUrl sl
  ((if sd > 0 then [Event.sleepEv sd] else []) ++ [Event.fetchEv url],
   routeResponse sd (fetch url))

/-- `GET /api/get-users/:id` from `src/app/api/get-users/[id]/route.ts`:
compute `safeDelay`, sleep when positive, fetch
`https://dummyjson.com/users/<id>` once, and build the response through
the same branch structure. -/
def getUserByIdHandler (id : String) (delayParam : Option String)
    (fetch : String → FetchOutcome) : List Event × ApiResponse :=
  let sd := safeDelayById delayParam
  let url := getUserByIdUrl id
  ((if sd > 0 then [Event.sleepEv sd] else []) ++ [Event.fetchEv url],
   routeResponse sd (fetch url))

/-! ## Theorems about the route handlers -/

/-- C1: for every `delay` query value that parses to an integer, both
handlers apply the clamp `Math.max(0, Math.min(delay, 30000))`: values
below 0 become 0, values above 30000 become 30000, and every in-range
value is applied unchanged. -/
theorem delay_clamped_to_bounds (p : String) (d : Int)
    (h : jsParseInt p = some d) :
    safeDelay (some p) = max 0 (min d 30000) ∧
    safeDelayById (some p) = max 0 (min d 30000) ∧
    (d < 0 → safeDelay (some p) = 0 ∧ safeDelayById (some p) = 0) ∧
    (30000 < d → safeDelay (some p) = 30000 ∧ safeDelayById (some p) = 30000) ∧
    (0 ≤ d → d ≤ 30000 → safeDelay (some p) = d ∧ safeDelayById (some p) = d) := by
  have h1 : safeDelay (some p) = max 0 (min d 30000) := by
    simp [safeDelay, Option.getD, h]
  have h2 : safeDelayById (some p) = max 0 (min d 30000) := by
    simp [safeDelayById, Option.getD, h]
  refine ⟨h1, h2, ?_, ?_, ?_⟩
  · intro hd
    constructor <;> [rw [h1]; rw [h2]] <;> omega
  · intro hd
    constructor <;> [rw [h1]; rw [h2]] <;> omega
  · intro hd hd2
    constructor <;> [rw [h1]; rw [h2]] <;> omega

/-- Witness for C1 at the concrete inputs "-5", "40000" and "7". -/
theorem delay_clamped_to_bounds_witness :
    safeDelay (some ("-5")) = 0 ∧ safeDelayById (some ("-5")) = 0 ∧
    safeDelay (some ("40000")) = 30000 ∧ safeDelay (some ("7")) = 7 := by
  have hneg := (delay_clamped_to_bounds ("-5") (-5) (by decide)).2.2.1 (by decide)
  have hbig := (delay_clamped_to_bounds ("40000") 40000 (by decide)).2.2.2.1 (by decide)
  have hmid := (delay_clamped_to_bounds ("7") 7 (by decide)).2.2.2.2 (by decide) (by decide)
  exact ⟨hneg.1, hneg.2, hbig.1, hmid.1⟩

/-- C2: for every `limit` query value that parses to an integer, the
effective limit is the clamp `Math.max(1, Math.min(limit, 1000))` (below 1
becomes 1, above 1000 becomes 1000, in-range unchanged), and the single
upstream fetch in the handler trace requests exactly
`https://dummyjson.com/users?limit=<effective limit>`. -/
theorem limit_clamped_and_url (p : String) (l : Int)
    (h : jsParseInt p = some l) (dp : Option String)
    (fetch : String → FetchOutcome) :
    safeLimit (some p) = max 1 (min l 1000) ∧
    (l < 1 → safeLimit (some p) = 1) ∧
    (1000 < l → safeLimit (some p) = 1000) ∧
    (1 ≤ l → l ≤ 1000 → safeLimit (some p) = l) ∧
    (getUsersHandler (some p) dp fetch).1.filter isFetchEv =
      [Event.fetchEv ("https://dummyjson.com/users?limit=" ++
        toString (max 1 (min l 1000)))] := by
  have h1 : safeLimit (some p) = max 1 (min l 1000) := by
    simp [safeLimit, Option.getD, h]
  refine ⟨h1, ?_, ?_, ?_, ?_⟩
  · intro hl; rw [h1]; omega
  · intro hl; rw [h1]; omega
  · intro hl hl2; rw [h1]; omega
  · simp only [getUsersHandler, getUsersUrl, List.filter_append, h1]
    split <;> simp [isFetchEv]

/-- Witness for C2 at the concrete inputs "0", "5000" and "5". -/
theorem limit_clamped_and_url_witness :
    safeLimit (some ("0")) = 1 ∧ safeLimit (some ("5000")) = 1000 ∧
    safeLimit (some ("5")) = 5 ∧
    (getUsersHandler (some ("5")) none
        (fun _ => FetchOutcome.threw none)).1.filter isFetchEv =
      [Event.fetchEv ("https://dummyjson.com/users?limit=5")] := by
  have hlow := (limit_clamped_and_url ("0") 0 (by decide) none
      (fun _ => FetchOutcome.threw none)).2.1 (by decide)
  have hhigh := (limit_clamped_and_url ("5000") 5000 (by decide) none
      (fun _ => FetchOutcome.threw none)).2.2.1 (by decide)
  have hmid := limit_clamped_and_url ("5") 5 (by decide) none
      (fun _ => FetchOutcome.threw none)
  refine ⟨hlow, hhigh, hmid.2.2.2.1 (by decide) (by decide), ?_⟩
  have := hmid.2.2.2.2
  simpa using this

/-- C5: every response of `GET /api/get-users` — upstream success,
upstream non-OK, or caught exception — carries the `x-delay-applied`
header, whose value is the decimal string of the effective (clamped)
delay. -/
theorem xDelayApplied_always_present (lp dp : Option String)
    (fetch : String → FetchOutcome) :
    (getUsersHandler lp dp fetch).2.xDelayApplied =
      some (toString (safeDelay dp)) := by
  simp only [getUsersHandler, routeResponse]
  cases fetch (getUsersUrl (safeLimit lp)) with
  | resolved status body => dsimp only; split <;> rfl
  | threw msg => rfl

/-- C9: defaulting at the interface. An absent `limit` (or one that does
not parse) yields effective limit 100; an absent `delay` yields effective
delay 2000; but a present `delay` that does not parse yields 0, not 2000 —
the non-numeric fallbacks of the two parameters are asymmetric. -/
theorem defaults_and_nan_fallbacks :
    safeLimit none = 100 ∧ safeDelay none = 2000 ∧ safeDelayById none = 2000 ∧
    (∀ s, jsParseInt s = none → safeLimit (some s) = 100) ∧
    (∀ s, jsParseInt s = none →
      safeDelay (some s) = 0 ∧ safeDelayById (some s) = 0) := by
  refine ⟨by decide, by decide, by decide, ?_, ?_⟩
  · intro s hs; simp [safeLimit, Option.getD, hs]
  · intro s hs
    exact ⟨by simp [safeDelay, Option.getD, hs],
           by simp [safeDelayById, Option.getD, hs]⟩

/-- Witness for C9 at the concrete non-numeric input "abc". -/
theorem defaults_and_nan_fallbacks_witness :
    safeLimit (some ("abc")) = 100 ∧ safeDelay (some ("abc")) = 0 := by
  have h := defaults_and_nan_fallbacks
  exact ⟨h.2.2.2.1 ("abc") (by decide), (h.2.2.2.2 ("abc") (by decide)).1⟩

/-- C6: `GET /api/get-users/:id` implements the same delay contract as
`GET /api/get-users`: for every query string the two handlers compute
identical effective delays, the id handler sleeps that delay (when
positive) before its single upstream fetch, and both handlers attach the
same `x-delay-applied` header value. -/
theorem byId_same_delay_contract (dp : Option String) :
    safeDelayById dp = safeDelay dp ∧
    (∀ id fetch,
      (getUserByIdHandler id dp fetch).1 =
        (if 0 < safeDelay dp then [Event.sleepEv (safeDelay dp)] else []) ++
          [Event.fetchEv (getUserByIdUrl id)] ∧
      (getUserByIdHandler id dp fetch).2.xDelayApplied =
        some (toString (safeDelay dp))) ∧
    (∀ lp fetch,
      (getUsersHandler lp dp fetch).2.xDelayApplied =
        some (toString (safeDelay dp))) := by
  have heq : safeDelayById dp = safeDelay dp := by
    simp [safeDelayById, safeDelay]
  refine ⟨heq, ?_, ?_⟩
  · intro id fetch
    constructor
    · simp only [getUserByIdHandler, heq]
    · simp only [getUserByIdHandler, routeResponse, heq]
      cases fetch (getUserByIdUrl id) with
      | resolved status body => dsimp only; split <;> rfl
      | threw msg => rfl
  · intro lp fetch
    exact xDelayApplied_always_present lp dp fetch

/-- C7: temporal order in `GET /api/get-users`. The trace contains exactly
one fetch event; when the effective delay is 0 the trace is just the fetch
(no sleep is performed); when it is positive the trace is the sleep of the
effective delay followed by the fetch, so the sleep completes before the
fetch is issued and the fetch is issued at most once. -/
theorem sleep_before_single_fetch (lp dp : Option String)
    (fetch : String → FetchOutcome) :
    ((getUsersHandler lp dp fetch).1.filter isFetchEv).length = 1 ∧
    (safeDelay dp = 0 →
      (getUsersHandler lp dp fetch).1 =
        [Event.fetchEv (getUsersUrl (safeLimit lp))]) ∧
    (0 < safeDelay dp →
      (getUsersHandler lp dp fetch).1 =
        [Event.sleepEv (safeDelay dp),
         Event.fetchEv (getUsersUrl (safeLimit lp))]) := by
  refine ⟨?_, ?_, ?_⟩
  · simp only [getUsersHandler, List.filter_append]
    split <;> simp [isFetchEv]
  · intro h0
    simp [getUsersHandler, h0]
  · intro hpos
    simp [getUsersHandler, hpos]

/-- Witness for C7 at `delay=5` and at `delay=0`. -/
theorem sleep_before_single_fetch_witness :
    (getUsersHandler none (some ("5"))
        (fun _ => FetchOutcome.threw none)).1 =
      [Event.sleepEv (safeDelay (some ("5"))),
       Event.fetchEv (getUsersUrl (safeLimit none))] ∧
    (getUsersHandler none (some ("0"))
        (fun _ => FetchOutcome.threw none)).1 =
      [Event.fetchEv (getUsersUrl (safeLimit none))] := by
  have h5 := sleep_before_single_fetch none (some ("5"))
      (fun _ => FetchOutcome.threw none)
  have h0 := sleep_before_single_fetch none (some ("0"))
      (fun _ => FetchOutcome.threw none)
  exact ⟨h5.2.2 (by decide), h0.2.1 (by decide)⟩

/-- C3: error propagation in both handlers. If the upstream fetch
resolves with a non-OK status, the response carries exactly that status
and a JSON body with an `error` field; if the fetch throws, the response
is a 500 with an `error` field; in particular an upstream 404 propagates
as a 404 with an `error` field. -/
theorem error_branches_propagate (lp dp : Option String) (id : String)
    (fetch : String → FetchOutcome) (s : Nat) (b : String)
    (m : Option String) :
    (fetch (getUsersUrl (safeLimit lp)) = FetchOutcome.resolved s b →
      statusOk s = false →
      (getUsersHandler lp dp fetch).2.status = s ∧
      (errorFieldOf (getUsersHandler lp dp fetch).2.body).isSome) ∧
    (fetch (getUsersUrl (safeLimit lp)) = FetchOutcome.threw m →
      (getUsersHandler lp dp fetch).2.status = 500 ∧
      (errorFieldOf (getUsersHandler lp dp fetch).2.body).isSome) ∧
    (fetch (getUserByIdUrl id) = FetchOutcome.resolved s b →
      statusOk s = false →
      (getUserByIdHandler id dp fetch).2.status = s ∧
      (errorFieldOf (getUserByIdHandler id dp fetch).2.body).isSome) ∧
    (fetch (getUserByIdUrl id) = FetchOutcome.threw m →
      (getUserByIdHandler id dp fetch).2.status = 500 ∧
      (errorFieldOf (getUserByIdHandler id dp fetch).2.body).isSome) ∧
    (fetch (getUsersUrl (safeLimit lp)) = FetchOutcome.resolved 404 b →
      (getUsersHandler lp dp fetch).2.status = 404 ∧
      (errorFieldOf (getUsersHandler lp dp fetch).2.body).isSome) := by
  refine ⟨?_, ?_, ?_, ?_, ?_⟩
  · intro hf hok
    simp [getUsersHandler, routeResponse, hf, hok, errorFieldOf]
  · intro hf
    simp [getUsersHandler, routeResponse, hf, errorFieldOf]
  · intro hf hok
    simp [getUserByIdHandler, routeResponse, hf, hok, errorFieldOf]
  · intro hf
    simp [getUserByIdHandler, routeResponse, hf, errorFieldOf]
  · intro hf
    have hok : statusOk 404 = false := by decide
    simp [getUsersHandler, routeResponse, hf, hok, errorFieldOf]

/-- Witness for C3 with a concrete upstream 404 and a concrete thrown
exception. -/
theorem error_branches_propagate_witness :
    ((getUsersHandler none none
        (fun _ => FetchOutcome.resolved 404 ("nf"))).2.status = 404 ∧
      (errorFieldOf (getUsersHandler none none
        (fun _ => FetchOutcome.resolved 404 ("nf"))).2.body).isSome) ∧
    ((getUserByIdHandler ("1") none
        (fun _ => FetchOutcome.threw (some ("boom")))).2.status = 500 ∧
      (errorFieldOf (getUserByIdHandler ("1") none
        (fun _ => FetchOutcome.threw (some ("boom")))).2.body).isSome) := by
  have h404 := (error_branches_propagate none none ("1")
      (fun _ => FetchOutcome.resolved 404 ("nf")) 404 ("nf") none).2.2.2.2 rfl
  have hthrew := (error_branches_propagate none none ("1")
      (fun _ => FetchOutcome.threw (some ("boom"))) 404 ("nf")
      (some ("boom"))).2.2.2.1 rfl
  exact ⟨h404, hthrew⟩

/-- C4 counterexample: the upstream failure content does NOT pass through
unchanged. With an upstream 404 whose body is a detailed message, the
handler returns the fixed string "Upstream fetch failed" as the error
field, not the upstream content. -/
theorem upstream_body_not_verbatim :
    errorFieldOf (getUsersHandler none none
        (fun _ => FetchOutcome.resolved 404
          ("detailed upstream error body"))).2.body =
      some ("Upstream fetch failed") ∧
    ("Upstream fetch failed" : String) ≠ ("detailed upstream error body") := by
  constructor
  · rfl
  · decide

/-- C4 amended: for every upstream HTTP failure the handlers return the
fixed JSON error body `{error: "Upstream fetch failed"}` (discarding the
upstream content) with pass-through status; for every network exception
the exception message is surfaced verbatim — or "Unknown error" when the
exception has no message — with status 500. -/
theorem error_bodies_fixed_or_message (lp dp : Option String) (id : String)
    (fetch : String → FetchOutcome) (s : Nat) (b : String) (m : String) :
    (fetch (getUsersUrl (safeLimit lp)) = FetchOutcome.resolved s b →
      statusOk s = false →
      (getUsersHandler lp dp fetch).2.status = s ∧
      (getUsersHandler lp dp fetch).2.body =
        RespBody.errorObj ("Upstream fetch failed")) ∧
    (fetch (getUsersUrl (safeLimit lp)) = FetchOutcome.threw (some m) →
      (getUsersHandler lp dp fetch).2.status = 500 ∧
      (getUsersHandler lp dp fetch).2.body = RespBody.errorObj m) ∧
    (fetch (getUsersUrl (safeLimit lp)) = FetchOutcome.threw none →
      (getUsersHandler lp dp fetch).2.status = 500 ∧
      (getUsersHandler lp dp fetch).2.body =
        RespBody.errorObj ("Unknown error")) ∧
    (fetch (getUserByIdUrl id) = FetchOutcome.resolved s b →
      statusOk s = false →
      (getUserByIdHandler id dp fetch).2.body =
        RespBody.errorObj ("Upstream fetch failed")) ∧
    (fetch (getUserByIdUrl id) = FetchOutcome.threw (some m) →
      (getUserByIdHandler id dp fetch).2.body = RespBody.errorObj m) := by
  refine ⟨?_, ?_, ?_, ?_, ?_⟩
  · intro hf hok
    simp [getUsersHandler, routeResponse, hf, hok]
  · intro hf
    simp [getUsersHandler, routeResponse, hf]
  · intro hf
    simp [getUsersHandler, routeResponse, hf]
  · intro hf hok
    simp [getUserByIdHandler, routeResponse, hf, hok]
  · intro hf
    simp [getUserByIdHandler, routeResponse, hf]

/-- Witness for the amended C4 with a concrete 502 failure and a concrete
exception message. -/
theorem error_bodies_fixed_or_message_witness :
    ((getUsersHandler none none
        (fun _ => FetchOutcome.resolved 502 ("bad gateway html"))).2.status = 502 ∧
      (getUsersHandler none none
        (fun _ => FetchOutcome.resolved 502 ("bad gateway html"))).2.body =
        RespBody.errorObj ("Upstream fetch failed")) ∧
    (getUsersHandler none none
        (fun _ => FetchOutcome.threw (some ("ECONNRESET")))).2.body =
      RespBody.errorObj ("ECONNRESET") := by
  have h502 := (error_bodies_fixed_or_message none none ("1")
      (fun _ => FetchOutcome.resolved 502 ("bad gateway html")) 502
      ("bad gateway html") ("ECONNRESET")).1 rfl (by decide)
  have hmsg := (error_bodies_fixed_or_message none none ("1")
      (fun _ => FetchOutcome.threw (some ("ECONNRESET"))) 502
      ("bad gateway html") ("ECONNRESET")).2.1 rfl
  exact ⟨h502, hmsg.2⟩

/-! ## Part B: carousel math of `src/unnamed/part_001` / `src/unnamed/part_002`

Angles are real numbers of degrees. The JS remainder operator `%` on
numbers is truncated division remainder: `a % b = a - b * trunc(a / b)`. -/

/-- Truncation toward zero of a real number, as a real: the JS `trunc`
underlying the `%` operator. -/
noncomputable def truncR (x : ℝ) : ℝ :=
  if 0 ≤ x then ((⌊x⌋ : ℤ) : ℝ) else ((⌈x⌉ : ℤ) : ℝ)

/-- The JS remainder `a % b` (sign follows the dividend). -/
noncomputable def jsMod (a b : ℝ) : ℝ := a - b * truncR (a / b)

/-- `normalizeAngle` from `src/unnamed/part_001` lines 60-64 (identical in
`src/unnamed/part_002`): `let d = deg % 360; if (d < 0) d += 360; return d;` -/
noncomputable def normalizeAngle (deg : ℝ) : ℝ :=
  if jsMod deg 360 < 0 then jsMod deg 360 + 360 else jsMod deg 360

/-- The signed angular distance `((normalizeAngle(d) + 180) % 360) - 180`
used by `ArcLabel`, `ArcPhaseLabel` and `ArcContent` (negative = below
centre, positive = above). -/
noncomputable def signedDistance (d : ℝ) : ℝ :=
  jsMod (normalizeAngle d + 180) 360 - 180

/-- ArcLabel `signedDist` of `src/unnamed/part_001` lines 130-134:
the angle relative to `centerRefDeg`, pushed through the normalised
signed-distance form. -/
noncomputable def labelSignedDist (centerRefDeg a : ℝ) : ℝ :=
  jsMod (normalizeAngle (a - centerRefDeg) + 180) 360 - 180

/-- ArcLabel `attraction` of `src/unnamed/part_001` lines 118-122:
`1 - Math.min(dist / th, 1)` with `dist` the absolute normalised signed
distance from `centerRefDeg` and `th = Math.max(0.001, thresholdDeg)`. -/
noncomputable def attraction (thresholdDeg centerRefDeg ang : ℝ) : ℝ :=
  1 - min (|jsMod (normalizeAngle (ang - centerRefDeg) + 180) 360 - 180| /
        max 0.001 thresholdDeg) 1

/-- The fade parameter of `src/unnamed/part_001` lines 135-141 (the same
formula appears in `ArcPhaseLabel` and `ArcContent` there, and at lines
126-132, 216-222 and 685-691 of `src/unnamed/part_002`):
`over = Math.max(0, |d| - clear)` past the clear zone
`clear = Math.max(0.001, clearDeg)`, divided by `clear` above centre and
`2 * clear` below, clamped by `Math.min(..., 1)`. -/
noncomputable def fadeT (clearDeg d : ℝ) : ℝ :=
  min (max 0 (|d| - max 0.001 clearDeg) /
      max 0.001 (if d > 0 then max 0.001 clearDeg else max 0.001 clearDeg * 2)) 1

/-- The opacity mapping `0.08 + Math.pow(1 - t, 0.9) * 0.92` of
`src/unnamed/part_001` line 142 (identical at line 237 and line 926 there,
and at lines 133, 223 and 692 of `src/unnamed/part_002`). -/
noncomputable def opacity (t : ℝ) : ℝ :=
  0.08 + (1 - t) ^ (0.9 : ℝ) * 0.92

/-! ### Range lemmas for the JS remainder by 360 -/

lemma jsMod_nonneg_bounds (a : ℝ) (ha : 0 ≤ a) :
    jsMod a 360 ∈ Set.Ico (0 : ℝ) 360 := by
  have hq : (0 : ℝ) ≤ a / 360 := by positivity
  have hfl : ((⌊a / 360⌋ : ℤ) : ℝ) ≤ a / 360 := Int.floor_le _
  have hfu : a / 360 < (⌊a / 360⌋ : ℤ) + 1 := Int.lt_floor_add_one _
  have hval : 360 * (a / 360) = a := by ring_nf
  unfold jsMod truncR
  rw [if_pos hq]
  constructor
  · nlinarith
  · nlinarith

lemma jsMod_neg_bounds (a : ℝ) (ha : a < 0) :
    jsMod a 360 ∈ Set.Ioc (-360 : ℝ) 0 := by
  have hq : ¬ (0 : ℝ) ≤ a / 360 := by
    intro h
    nlinarith
  have hcl : a / 360 ≤ ((⌈a / 360⌉ : ℤ) : ℝ) := Int.le_ceil _
  have hcu : ((⌈a / 360⌉ : ℤ) : ℝ) < a / 360 + 1 := Int.ceil_lt_add_one _
  unfold jsMod truncR
  rw [if_neg hq]
  constructor
  · nlinarith
  · nlinarith

lemma jsMod_sub_int_mul (a : ℝ) :
    ∃ k : ℤ, jsMod a 360 = a + 360 * (k : ℝ) := by
  unfold jsMod truncR
  by_cases h : (0 : ℝ) ≤ a / 360
  · exact ⟨-⌊a / 360⌋, by rw [if_pos h]; push_cast; ring⟩
  · exact ⟨-⌈a / 360⌉, by rw [if_neg h]; push_cast; ring⟩

lemma normalizeAngle_mem (d : ℝ) :
    normalizeAngle d ∈ Set.Ico (0 : ℝ) 360 := by
  unfold normalizeAngle
  rcases le_or_lt 0 d with hd | hd
  · have h := jsMod_nonneg_bounds d hd
    rw [if_neg (not_lt.mpr h.1)]
    exact h
  · have h := jsMod_neg_bounds d hd
    by_cases hz : jsMod d 360 < 0
    · rw [if_pos hz]
      exact ⟨by linarith [h.1], by linarith⟩
    · rw [if_neg hz]
      push_neg at hz
      exact ⟨hz, by linarith [h.2]⟩

lemma normalizeAngle_congruent (d : ℝ) :
    ∃ k : ℤ, normalizeAngle d = d + 360 * (k : ℝ) := by
  obtain ⟨k, hk⟩ := jsMod_sub_int_mul d
  unfold normalizeAngle
  by_cases hz : jsMod d 360 < 0
  · exact ⟨k + 1, by rw [if_pos hz, hk]; push_cast; ring⟩
  · exact ⟨k, by rw [if_neg hz, hk]⟩

lemma signedDistance_mem (d : ℝ) :
    signedDistance d ∈ Set.Ico (-180 : ℝ) 180 := by
  have hn := normalizeAngle_mem d
  have hnn : (0 : ℝ) ≤ normalizeAngle d + 180 := by
    have := hn.1
    linarith
  have h := jsMod_nonneg_bounds (normalizeAngle d + 180) hnn
  unfold signedDistance
  exact ⟨by linarith [h.1], by linarith [h.2]⟩

/-! ### Theorems about the carousel math -/

/-- C10: for every real degree value `d`, `normalizeAngle d` lies in
`[0, 360)` and is congruent to `d` modulo 360; the derived signed distance
`((normalizeAngle d + 180) % 360) - 180` lies in `[-180, 180)`; and the
per-label signed distance and attraction consume the angle only through
these normalised forms. -/
theorem angle_normalisation_invariant (d : ℝ) :
    normalizeAngle d ∈ Set.Ico (0 : ℝ) 360 ∧
    (∃ k : ℤ, normalizeAngle d = d + 360 * (k : ℝ)) ∧
    signedDistance d ∈ Set.Ico (-180 : ℝ) 180 ∧
    (∀ c a, labelSignedDist c a = signedDistance (a - c)) ∧
    (∀ th c a, attraction th c a =
      1 - min (|signedDistance (a - c)| / max 0.001 th) 1) := by
  exact ⟨normalizeAngle_mem d, normalizeAngle_congruent d,
    signedDistance_mem d, fun _ _ => rfl, fun _ _ _ => rfl⟩

/-- C8: for every angle input (every signed distance `d` and every
`clearDeg`), the fade parameter is clamped to `[0, 1]`, and the opacity
`0.08 + (1 - t) ^ 0.9 * 0.92` lies in `[0.08, 1] ⊆ [0, 1]` — for labels,
phase labels and content cards alike, which share the same formula. -/
theorem opacity_in_unit_interval (clearDeg d : ℝ) :
    fadeT clearDeg d ∈ Set.Icc (0 : ℝ) 1 ∧
    opacity (fadeT clearDeg d) ∈ Set.Icc (0.08 : ℝ) 1 ∧
    Set.Icc (0.08 : ℝ) 1 ⊆ Set.Icc (0 : ℝ) 1 := by
  have hden : (0 : ℝ) <
      max 0.001 (if d > 0 then max 0.001 clearDeg else max 0.001 clearDeg * 2) := by
    have : (0.001 : ℝ) ≤
        max 0.001 (if d > 0 then max 0.001 clearDeg else max 0.001 clearDeg * 2) :=
      le_max_left _ _
    linarith
  have ht : fadeT clearDeg d ∈ Set.Icc (0 : ℝ) 1 := by
    unfold fadeT
    constructor
    · exact le_min (div_nonneg (le_max_left _ _) (le_of_lt hden)) zero_le_one
    · exact min_le_right _ _
  refine ⟨ht, ?_, ?_⟩
  · have h1 : (0 : ℝ) ≤ 1 - fadeT clearDeg d := by linarith [ht.2]
    have h2 : 1 - fadeT clearDeg d ≤ 1 := by linarith [ht.1]
    have hp0 : (0 : ℝ) ≤ (1 - fadeT clearDeg d) ^ (0.9 : ℝ) :=
      Real.rpow_nonneg h1 _
    have hp1 : (1 - fadeT clearDeg d) ^ (0.9 : ℝ) ≤ 1 :=
      Real.rpow_le_one h1 h2 (by norm_num)
    unfold opacity
    constructor
    · nlinarith
    · nlinarith
  · exact Set.Icc_subset_Icc (by norm_num) le_rfl

end CacheComp
